import Mathlib

/-!
# Verification of the `prediction_market::market` Move module

A shallow embedding of the parimutuel prediction-market settlement engine.
Addresses are modelled as `Nat`, `u64`/`u128` values as `Nat` with explicit
range checks where the Move VM would abort (arithmetic overflow, cast
overflow, division by zero), and on-chain `Table`s as association lists.
Every entry function is a total Lean function from the pre-state to
`Except MoveError` of the post-state, mirroring Move's all-or-nothing
transaction semantics: a failure carries no partial state.

Coin movements (`coin::withdraw` / `coin::deposit` / `coin::transfer`) touch
account balances external to the module's own state; the embedding records
the amount a claim credits by returning it alongside the post-state.
-/

namespace PredictionMarket

/-- Modulus of the Move `u64` type. -/
def U64_MOD : Nat := 2 ^ 64

/-- Modulus of the Move `u128` type. -/
def U128_MOD : Nat := 2 ^ 128

/-- How a Move transaction can abort: an explicit `assert!` code from the
module, a native arithmetic abort (overflow, narrowing cast, division by
zero), or an abort raised inside a framework builtin (`table::borrow` on a
missing key, `vector::borrow` out of range). -/
inductive MoveError where
  | abort (code : Nat)
  | arithmetic
  | builtinAbort
deriving DecidableEq, Repr

def E_NOT_ADMIN : Nat := 1
def E_MARKET_NOT_FOUND : Nat := 2
def E_MARKET_RESOLVED : Nat := 3
def E_MARKET_NOT_RESOLVED : Nat := 4
def E_INVALID_AMOUNT : Nat := 6
def E_NO_WINNINGS : Nat := 7
def E_MARKET_EXPIRED : Nat := 8
def E_ALREADY_INITIALIZED : Nat := 9
def E_POSITION_ALREADY_EXISTS : Nat := 10

/-- Hardcoded admin address (`ADMIN_ADDR` constant of the module). -/
def ADMIN_ADDR : Nat := 0xf111021255abd6e2cc41dc34055cebb8ad104f4034868d45ac9b1059ecb01a91

/-- The `Market` struct. -/
structure Market where
  id : Nat
  company_name : String
  description : String
  yes_pool : Nat
  no_pool : Nat
  total_liquidity : Nat
  expiry_timestamp : Nat
  resolved : Bool
  winning_outcome : Bool
  creator : Nat
deriving DecidableEq, Repr

/-- The `UserPosition` struct. -/
structure UserPosition where
  yes_tokens : Nat
  no_tokens : Nat
  total_invested : Nat
deriving DecidableEq, Repr

/-- The `MarketRegistry` resource (event handles and the vault signer
capability carry no data relevant to the verified properties and are
omitted). -/
structure MarketRegistry where
  admin : Nat
  markets : List (Nat × Market)
  market_ids : List Nat
  next_market_id : Nat
  treasury : Nat
deriving DecidableEq, Repr

/-- Global on-chain state touched by the module: the registry stored at the
registry address, and each user's `Position` resource (address ↦ market id ↦
`UserPosition`).  A user absent from `positions` has no `Position` resource
published (`exists<Position>` is false). -/
structure GlobalState where
  registry : MarketRegistry
  positions : List (Nat × List (Nat × UserPosition))
deriving DecidableEq, Repr

/-- `table::borrow` as a lookup: `some` iff `table::contains`. -/
def tget {α : Type} : List (Nat × α) → Nat → Option α
  | [], _ => none
  | (k0, v) :: rest, k => if k0 = k then some v else tget rest k

/-- `table::contains`. -/
def tcontains {α : Type} (t : List (Nat × α)) (k : Nat) : Bool :=
  (tget t k).isSome

/-- `table::add` on a fresh key / `table::borrow_mut` update on an existing
key: set the binding of `k` to `v`. -/
def tset {α : Type} : List (Nat × α) → Nat → α → List (Nat × α)
  | [], k, v => [(k, v)]
  | (k0, v0) :: rest, k, v =>
      if k0 = k then (k, v) :: rest else (k0, v0) :: tset rest k v

/-- `initialize(admin, seed)`: creates the registry once per administrator
(`initialize` is a Lean keyword, hence the `_registry` suffix).  `reg` is the
`MarketRegistry` already stored at the admin address, if any. -/
def initialize_registry (admin_addr : Nat) (reg : Option MarketRegistry) :
    Except MoveError MarketRegistry :=
  match reg with
  | some _ => .error (.abort E_ALREADY_INITIALIZED)
  | none => .ok
      { admin := admin_addr
        markets := []
        market_ids := []
        next_market_id := 1
        treasury := 0 }

/-- `create_market(creator, registry_addr, company_name, description,
initial_liquidity, expiry_timestamp)`.  The coin withdrawal into the vault is
external to the module state.  `table::add` is on the fresh key
`next_market_id`; the `u64` increment of the id counter aborts on overflow. -/
def create_market (creator_addr : Nat) (company_name description : String)
    (initial_liquidity expiry_timestamp : Nat) (s : GlobalState) :
    Except MoveError GlobalState :=
  let registry := s.registry
  if creator_addr = ADMIN_ADDR ∨ creator_addr = registry.admin then
    let market_id := registry.next_market_id
    let half_liquidity := initial_liquidity / 2
    let market : Market :=
      { id := market_id
        company_name := company_name
        description := description
        yes_pool := half_liquidity
        no_pool := half_liquidity
        total_liquidity := initial_liquidity
        expiry_timestamp := expiry_timestamp
        resolved := false
        winning_outcome := false
        creator := creator_addr }
    if market_id + 1 < U64_MOD then
      .ok { s with registry :=
        { registry with
            markets := tset registry.markets market_id market
            market_ids := registry.market_ids ++ [market_id]
            next_market_id := market_id + 1 } }
    else .error .arithmetic
  else .error (.abort E_NOT_ADMIN)

/-- `buy_tokens_internal(trader, registry_addr, market_id, amount, is_yes)`.
`now` is `timestamp::now_seconds()`.  When the trader has no `Position`
resource yet, an empty one is created before the one-bet-per-market check,
so the check runs against the empty table.  Both `u64` pool additions abort
on overflow. -/
def buy_tokens_internal (now trader_addr market_id amount : Nat)
    (is_yes : Bool) (s : GlobalState) : Except MoveError GlobalState :=
  if amount = 0 then .error (.abort E_INVALID_AMOUNT) else
  let registry := s.registry
  match tget registry.markets market_id with
  | none => .error (.abort E_MARKET_NOT_FOUND)
  | some market =>
    if market.resolved then .error (.abort E_MARKET_RESOLVED) else
    if market.expiry_timestamp ≤ now then .error (.abort E_MARKET_EXPIRED) else
    let store := (tget s.positions trader_addr).getD []
    if tcontains store market_id then
      .error (.abort E_POSITION_ALREADY_EXISTS)
    else
      let new_side_pool :=
        (if is_yes then market.yes_pool else market.no_pool) + amount
      if new_side_pool < U64_MOD ∧ market.total_liquidity + amount < U64_MOD then
        let market2 : Market :=
          { market with
              yes_pool := if is_yes then new_side_pool else market.yes_pool
              no_pool := if is_yes then market.no_pool else new_side_pool
              total_liquidity := market.total_liquidity + amount }
        let pos : UserPosition :=
          { yes_tokens := if is_yes then amount else 0
            no_tokens := if is_yes then 0 else amount
            total_invested := amount }
        .ok { s with
          registry := { registry with
            markets := tset registry.markets market_id market2 }
          positions := tset s.positions trader_addr (tset store market_id pos) }
      else .error .arithmetic

/-- `buy_yes`. -/
def buy_yes (now trader_addr market_id amount : Nat) (s : GlobalState) :
    Except MoveError GlobalState :=
  buy_tokens_internal now trader_addr market_id amount true s

/-- `buy_no`. -/
def buy_no (now trader_addr market_id amount : Nat) (s : GlobalState) :
    Except MoveError GlobalState :=
  buy_tokens_internal now trader_addr market_id amount false s

/-- `resolve_market(admin, registry_addr, market_id, winning_outcome)`.
Note: the function reads no clock and performs no expiry check. -/
def resolve_market (admin_addr market_id : Nat) (winning_outcome : Bool)
    (s : GlobalState) : Except MoveError GlobalState :=
  let registry := s.registry
  if admin_addr = ADMIN_ADDR ∨ admin_addr = registry.admin then
    match tget registry.markets market_id with
    | none => .error (.abort E_MARKET_NOT_FOUND)
    | some market =>
      if market.resolved then .error (.abort E_MARKET_RESOLVED) else
      let market2 : Market :=
        { market with resolved := true, winning_outcome := winning_outcome }
      .ok { s with registry :=
        { registry with markets := tset registry.markets market_id market2 } }
  else .error (.abort E_NOT_ADMIN)

/-- The parimutuel payout expression of `claim_winnings`:
`((winning_shares as u128) * (total_liquidity as u128)) / (winning_pool_total as u128)`,
for operands that fit in `u128`. -/
def payout_amount (winning_shares total_liquidity winning_pool_total : Nat) : Nat :=
  winning_shares * total_liquidity / winning_pool_total

/-- `claim_winnings(claimer, registry_addr, market_id)`.  Returns the
post-state together with the amount transferred out of the vault to the
claimer.  The `u128` multiplication aborts on overflow, the division aborts
on a zero divisor, and the `(payout as u64)` cast aborts when the value does
not fit. -/
def claim_winnings (claimer_addr market_id : Nat) (s : GlobalState) :
    Except MoveError (GlobalState × Nat) :=
  match tget s.positions claimer_addr with
  | none => .error (.abort E_NO_WINNINGS)
  | some store =>
    match tget store market_id with
    | none => .error (.abort E_NO_WINNINGS)
    | some user_pos =>
      match tget s.registry.markets market_id with
      | none => .error (.abort E_MARKET_NOT_FOUND)
      | some market =>
        if market.resolved then
          let winning_shares :=
            if market.winning_outcome then user_pos.yes_tokens else user_pos.no_tokens
          let winning_pool_total :=
            if market.winning_outcome then market.yes_pool else market.no_pool
          if winning_shares = 0 then .error (.abort E_NO_WINNINGS) else
          if winning_shares * market.total_liquidity < U128_MOD then
            if winning_pool_total = 0 then .error .arithmetic else
            let payout := payout_amount winning_shares market.total_liquidity winning_pool_total
            if payout < U64_MOD then
              let user_pos2 : UserPosition :=
                { user_pos with yes_tokens := 0, no_tokens := 0 }
              let store2 := tset store market_id user_pos2
              let s2 : GlobalState :=
                { s with positions := tset s.positions claimer_addr store2 }
              .ok (s2, payout)
            else .error .arithmetic
          else .error .arithmetic
        else .error (.abort E_MARKET_NOT_RESOLVED)

/-! ## View functions -/

/-- `get_market_count`. -/
def get_market_count (s : GlobalState) : Except MoveError Nat :=
  .ok s.registry.market_ids.length

/-- `get_market_id_at`: `vector::borrow` aborts on an out-of-range index. -/
def get_market_id_at (s : GlobalState) (index : Nat) : Except MoveError Nat :=
  match s.registry.market_ids.get? index with
  | some id => .ok id
  | none => .error .builtinAbort

/-- `get_market_ids`: copies the id vector. -/
def get_market_ids (s : GlobalState) : Except MoveError (List Nat) :=
  .ok s.registry.market_ids

/-- `get_market_details`: `assert!`s presence with `E_MARKET_NOT_FOUND`. -/
def get_market_details (s : GlobalState) (market_id : Nat) :
    Except MoveError (Nat × String × String × Nat × Nat × Nat × Nat × Bool × Bool × Nat) :=
  match tget s.registry.markets market_id with
  | none => .error (.abort E_MARKET_NOT_FOUND)
  | some m => .ok (m.id, m.company_name, m.description, m.yes_pool, m.no_pool,
      m.total_liquidity, m.expiry_timestamp, m.resolved, m.winning_outcome, m.creator)

/-- `get_market_pools`: bare `table::borrow`, aborts on an unknown id. -/
def get_market_pools (s : GlobalState) (market_id : Nat) :
    Except MoveError (Nat × Nat × Nat) :=
  match tget s.registry.markets market_id with
  | none => .error .builtinAbort
  | some m => .ok (m.yes_pool, m.no_pool, m.total_liquidity)

/-- `get_market_expiry`: bare `table::borrow`. -/
def get_market_expiry (s : GlobalState) (market_id : Nat) : Except MoveError Nat :=
  match tget s.registry.markets market_id with
  | none => .error .builtinAbort
  | some m => .ok m.expiry_timestamp

/-- `is_market_expired`: bare `table::borrow`. -/
def is_market_expired (now : Nat) (s : GlobalState) (market_id : Nat) :
    Except MoveError Bool :=
  match tget s.registry.markets market_id with
  | none => .error .builtinAbort
  | some m => .ok (decide (m.expiry_timestamp ≤ now))

/-- `get_market_status`: bare `table::borrow`. -/
def get_market_status (now : Nat) (s : GlobalState) (market_id : Nat) :
    Except MoveError (Bool × Bool × Bool) :=
  match tget s.registry.markets market_id with
  | none => .error .builtinAbort
  | some m => .ok (m.resolved, decide (m.expiry_timestamp ≤ now), m.winning_outcome)

/-- `get_prices_bps`: ignores both arguments, acquires no state. -/
def get_prices_bps (_registry_addr _market_id : Nat) : Nat × Nat :=
  (5000, 5000)

/-- `get_treasury_fees`. -/
def get_treasury_fees (s : GlobalState) : Except MoveError Nat :=
  .ok s.registry.treasury

/-- `get_market_info`: bare `table::borrow`. -/
def get_market_info (s : GlobalState) (market_id : Nat) :
    Except MoveError (String × Nat × Nat × Bool × Bool) :=
  match tget s.registry.markets market_id with
  | none => .error .builtinAbort
  | some m => .ok (m.company_name, m.yes_pool, m.no_pool, m.resolved, m.winning_outcome)

/-- `get_yes_price_bps`: ignores both arguments, acquires no state. -/
def get_yes_price_bps (_registry_addr _market_id : Nat) : Nat :=
  5000

/-- `get_position`: returns `(0, 0, 0)` when the user has no `Position`
resource or no entry for the market. -/
def get_position (s : GlobalState) (user market_id : Nat) :
    Except MoveError (Nat × Nat × Nat) :=
  match tget s.positions user with
  | none => .ok (0, 0, 0)
  | some store =>
    match tget store market_id with
    | none => .ok (0, 0, 0)
    | some pos => .ok (pos.yes_tokens, pos.no_tokens, pos.total_invested)

/-- `get_resource_address`: reads the registry's signer capability; modelled
as the registry address itself (the capability is opaque data). -/
def get_resource_address (s : GlobalState) : Except MoveError Nat :=
  .ok s.registry.admin

/-! ## Concrete states: the worked scenario of the specification

`initialize`; `create_market(seed = 100, expiry = 1000)`; user 1 buys YES 30;
user 2 buys NO 20; the admin (address 77) resolves YES; user 1 claims. -/

/-- Registry freshly produced by `initialize` for admin address 77. -/
def demoRegistry : MarketRegistry :=
  { admin := 77, markets := [], market_ids := [], next_market_id := 1, treasury := 0 }

/-- State right after `initialize`. -/
def demoS0 : GlobalState := { registry := demoRegistry, positions := [] }

/-- The market as created with seed 100 and expiry 1000. -/
def demoMarket : Market :=
  { id := 1, company_name := "acme", description := "d", yes_pool := 50,
    no_pool := 50, total_liquidity := 100, expiry_timestamp := 1000,
    resolved := false, winning_outcome := false, creator := 77 }

/-- Registry holding exactly the one demo market, id counter at 2. -/
def demoRegistryWith (m : Market) : MarketRegistry :=
  { admin := 77, markets := [(1, m)], market_ids := [1], next_market_id := 2, treasury := 0 }

/-- State after `create_market`. -/
def demoS1 : GlobalState :=
  { registry := demoRegistryWith demoMarket, positions := [] }

/-- State after user 1 buys YES 30. -/
def demoS2 : GlobalState :=
  { registry := demoRegistryWith { demoMarket with yes_pool := 80, total_liquidity := 130 }
    positions := [(1, [(1, { yes_tokens := 30, no_tokens := 0, total_invested := 30 })])] }

/-- State after user 2 additionally buys NO 20. -/
def demoS3 : GlobalState :=
  { registry := demoRegistryWith { demoMarket with yes_pool := 80, no_pool := 70, total_liquidity := 150 }
    positions :=
      [(1, [(1, { yes_tokens := 30, no_tokens := 0, total_invested := 30 })]),
       (2, [(1, { yes_tokens := 0, no_tokens := 20, total_invested := 20 })])] }

/-- The market of `demoS3` once resolved YES. -/
def demoMarketResolved : Market :=
  { demoMarket with
      yes_pool := 80
      no_pool := 70
      total_liquidity := 150
      resolved := true
      winning_outcome := true }

/-- State after the admin resolves the market YES. -/
def demoS4 : GlobalState :=
  { registry := demoRegistryWith demoMarketResolved
    positions :=
      [(1, [(1, { yes_tokens := 30, no_tokens := 0, total_invested := 30 })]),
       (2, [(1, { yes_tokens := 0, no_tokens := 20, total_invested := 20 })])] }

/-- State after user 1 successfully claims (both token counters zeroed,
`total_invested` retained). -/
def demoS5 : GlobalState :=
  { registry := demoRegistryWith demoMarketResolved
    positions :=
      [(1, [(1, { yes_tokens := 0, no_tokens := 0, total_invested := 30 })]),
       (2, [(1, { yes_tokens := 0, no_tokens := 20, total_invested := 20 })])] }

/-- The market produced by `create_market` with the odd seed 1. -/
def demoOddMarket : Market :=
  { id := 1, company_name := "odd", description := "d", yes_pool := 0,
    no_pool := 0, total_liquidity := 1, expiry_timestamp := 1000,
    resolved := false, winning_outcome := false, creator := 77 }

/-- State after `create_market` with the odd seed 1 on a fresh registry. -/
def demoOddS : GlobalState :=
  { registry :=
      { admin := 77, markets := [(1, demoOddMarket)], market_ids := [1],
        next_market_id := 2, treasury := 0 }
    positions := [] }

/-! ## Lemmas about the table operations -/

theorem tget_tset_self {α : Type} (t : List (Nat × α)) (k : Nat) (v : α) :
    tget (tset t k v) k = some v := by
  induction t with
  | nil => simp [tset, tget]
  | cons hd tl ih =>
    obtain ⟨k0, v0⟩ := hd
    by_cases h : k0 = k
    · simp [tset, tget, h]
    · simp [tset, tget, h, ih]

theorem tget_tset_ne {α : Type} (t : List (Nat × α)) (k k' : Nat) (v : α)
    (h : k ≠ k') : tget (tset t k v) k' = tget t k' := by
  induction t with
  | nil => simp [tset, tget, h]
  | cons hd tl ih =>
    obtain ⟨k0, v0⟩ := hd
    by_cases h0 : k0 = k
    · subst h0
      simp [tset, tget, h]
    · simp only [tset, if_neg h0]
      by_cases h1 : k0 = k'
      · simp [tget, h1]
      · simp [tget, h1, ih]

/-! ## Claims -/

/-- **C10**: the price views are constant: `get_prices_bps` returns
`(5000, 5000)` and `get_yes_price_bps` returns `5000`, independent of the
registry address and market id (they do not even acquire the registry, so
the result is the same whether or not the market exists). -/
theorem prices_always_constant (registry_addr market_id : Nat) :
    get_prices_bps registry_addr market_id = (5000, 5000) ∧
    get_yes_price_bps registry_addr market_id = 5000 :=
  ⟨rfl, rfl⟩

/-- **C7**: `resolve_market` is admin-only (hardcoded admin or registry
admin), fails `E_MARKET_NOT_FOUND` on an unknown id, fails
`E_MARKET_RESOLVED` on an already-resolved market (`winning_outcome` is
write-once), and on success sets `resolved := true` and stores the outcome.
The function reads no clock, so the success case holds for every
`expiry_timestamp` of the market — resolution succeeds before and after
expiry alike. -/
theorem resolve_market_spec :
    (∀ (a mid : Nat) (w : Bool) (s : GlobalState),
      a ≠ ADMIN_ADDR → a ≠ s.registry.admin →
      resolve_market a mid w s = .error (.abort E_NOT_ADMIN)) ∧
    (∀ (a mid : Nat) (w : Bool) (s : GlobalState),
      (a = ADMIN_ADDR ∨ a = s.registry.admin) →
      tget s.registry.markets mid = none →
      resolve_market a mid w s = .error (.abort E_MARKET_NOT_FOUND)) ∧
    (∀ (a mid : Nat) (w : Bool) (s : GlobalState) (m : Market),
      (a = ADMIN_ADDR ∨ a = s.registry.admin) →
      tget s.registry.markets mid = some m → m.resolved = true →
      resolve_market a mid w s = .error (.abort E_MARKET_RESOLVED)) ∧
    (∀ (a mid : Nat) (w : Bool) (s : GlobalState) (m : Market),
      (a = ADMIN_ADDR ∨ a = s.registry.admin) →
      tget s.registry.markets mid = some m → m.resolved = false →
      resolve_market a mid w s = .ok { s with registry :=
        { s.registry with markets := tset s.registry.markets mid ({ m with resolved := true, winning_outcome := w }) } }) := by
  refine ⟨?_, ?_, ?_, ?_⟩
  · intro a mid w s h1 h2
    simp only [resolve_market]
    rw [if_neg (by simp [h1, h2])]
  · intro a mid w s hadm hnone
    simp only [resolve_market]
    rw [if_pos hadm, hnone]
  · intro a mid w s m hadm hm hres
    simp only [resolve_market]
    rw [if_pos hadm, hm]
    simp [hres]
  · intro a mid w s m hadm hm hres
    simp only [resolve_market]
    rw [if_pos hadm, hm]
    simp [hres]

/-- Witness for **C7**: on the worked scenario, the admin resolves the open
market YES successfully (with expiry 1000 already irrelevant), and a second
resolution fails `E_MARKET_RESOLVED`. -/
theorem resolve_market_spec_witness :
    resolve_market 77 1 true demoS3 = .ok demoS4 ∧
    resolve_market 77 1 false demoS4 = .error (.abort E_MARKET_RESOLVED) := by
  constructor
  · exact resolve_market_spec.2.2.2 77 1 true demoS3
      ({ demoMarket with yes_pool := 80, no_pool := 70, total_liquidity := 150 })
      (Or.inr rfl) rfl rfl
  · exact resolve_market_spec.2.2.1 77 1 false demoS4 demoMarketResolved
      (Or.inr rfl) rfl rfl

/-- **C8**: `initialize` starts the id counter at 1; a successful
`create_market` with seed `initial_liquidity` produces a market with
`yes_pool = no_pool = initial_liquidity / 2` (integer division, dropping one
unit of an odd seed), `total_liquidity = initial_liquidity`,
`resolved = false`, carrying the current `next_market_id` as its id; the id
is appended to the ordered id list and the counter is incremented by one, so
ids are assigned sequentially from 1. -/
theorem create_market_spec :
    (∀ a : Nat, initialize_registry a none = .ok
      { admin := a, markets := [], market_ids := [], next_market_id := 1,
        treasury := 0 }) ∧
    (∀ (c : Nat) (nm ds : String) (L e : Nat) (s : GlobalState),
      (c = ADMIN_ADDR ∨ c = s.registry.admin) →
      s.registry.next_market_id + 1 < U64_MOD →
      create_market c nm ds L e s = .ok { s with registry :=
        { s.registry with
            markets := tset s.registry.markets s.registry.next_market_id
              { id := s.registry.next_market_id, company_name := nm,
                description := ds, yes_pool := L / 2, no_pool := L / 2,
                total_liquidity := L, expiry_timestamp := e, resolved := false,
                winning_outcome := false, creator := c }
            market_ids := s.registry.market_ids ++ [s.registry.next_market_id]
            next_market_id := s.registry.next_market_id + 1 } }) := by
  constructor
  · intro a
    rfl
  · intro c nm ds L e s hadm hof
    simp only [create_market]
    rw [if_pos hadm, if_pos hof]

/-- Witness for **C8**: initializing for admin 77 starts the counter at 1,
and creating the demo market (seed 100, even) yields pools 50/50, total 100,
unresolved, id 1, id list `[1]`, counter 2. -/
theorem create_market_spec_witness :
    initialize_registry 77 none = .ok demoRegistry ∧
    create_market 77 "acme" "d" 100 1000 demoS0 = .ok demoS1 := by
  constructor
  · exact create_market_spec.1 77
  · exact create_market_spec.2 77 "acme" "d" 100 1000 demoS0 (Or.inr rfl) (by decide)

/-- **C1** fails as stated: `create_market` with the odd seed 1 succeeds and
produces a market with `yes_pool + no_pool = 0 ≠ 1 = total_liquidity`, so
the invariant does not hold immediately after `create_market` for odd
`initial_liquidity`. -/
theorem liquidity_invariant_odd_seed_cex :
    create_market 77 "odd" "d" 1 1000 demoS0 = .ok demoOddS ∧
    tget demoOddS.registry.markets 1 = some demoOddMarket ∧
    demoOddMarket.yes_pool + demoOddMarket.no_pool ≠ demoOddMarket.total_liquidity :=
  ⟨rfl, rfl, by decide⟩

/-- **C1** (amended): after a successful `create_market`,
`yes_pool + no_pool + initial_liquidity % 2 = total_liquidity` — the pool
equation holds exactly when the seed is even, an odd seed leaving the pools
one unit short; and every accepted bet (`buy_yes`/`buy_no` via
`buy_tokens_internal`) preserves `yes_pool + no_pool = total_liquidity`
whenever it held before the bet. -/
theorem liquidity_invariant_amended :
    (∀ (c : Nat) (nm ds : String) (L e : Nat) (s s' : GlobalState),
      create_market c nm ds L e s = .ok s' →
      ∃ m' : Market, tget s'.registry.markets s.registry.next_market_id = some m' ∧
        m'.yes_pool + m'.no_pool + L % 2 = m'.total_liquidity ∧
        (L % 2 = 0 → m'.yes_pool + m'.no_pool = m'.total_liquidity)) ∧
    (∀ (now tr mid a : Nat) (side : Bool) (s s' : GlobalState) (m m' : Market),
      buy_tokens_internal now tr mid a side s = .ok s' →
      tget s.registry.markets mid = some m →
      tget s'.registry.markets mid = some m' →
      m.yes_pool + m.no_pool = m.total_liquidity →
      m'.yes_pool + m'.no_pool = m'.total_liquidity) := by
  constructor
  · intro c nm ds L e s s' hok
    simp only [create_market] at hok
    split at hok
    · split at hok
      · simp only [Except.ok.injEq] at hok
        subst hok
        refine ⟨_, tget_tset_self _ _ _, ?_, ?_⟩
        · show L / 2 + L / 2 + L % 2 = L
          omega
        · intro h
          show L / 2 + L / 2 = L
          omega
      · simp at hok
    · simp at hok
  · intro now tr mid a side s s' m m' hok hm hm' hinv
    cases side
    all_goals
      simp only [buy_tokens_internal, Bool.false_eq_true, if_false, if_true] at hok
    all_goals
      split at hok
      case _ => simp at hok
      case _ =>
        split at hok
        case _ => simp at hok
        case _ =>
          rename_i market heq
          rw [hm] at heq
          simp only [Option.some.injEq] at heq
          subst heq
          split at hok
          case _ => simp at hok
          case _ =>
            split at hok
            case _ => simp at hok
            case _ =>
              split at hok
              case _ => simp at hok
              case _ =>
                split at hok
                case _ =>
                  simp only [Except.ok.injEq] at hok
                  subst hok
                  rw [tget_tset_self] at hm'
                  simp only [Option.some.injEq] at hm'
                  subst hm'
                  simp only []
                  omega
                case _ => simp at hok

/-- Witness for **C1** (amended): for the worked scenario, the even seed 100
establishes the pool equation, and user 1's accepted YES bet of 30 preserves
it (80 + 50 = 130). -/
theorem liquidity_invariant_amended_witness :
    (∃ m' : Market, tget demoS1.registry.markets 1 = some m' ∧
        m'.yes_pool + m'.no_pool + 100 % 2 = m'.total_liquidity ∧
        (100 % 2 = 0 → m'.yes_pool + m'.no_pool = m'.total_liquidity)) ∧
    ({ demoMarket with yes_pool := 80, total_liquidity := 130 } : Market).yes_pool +
        ({ demoMarket with yes_pool := 80, total_liquidity := 130 } : Market).no_pool =
      ({ demoMarket with yes_pool := 80, total_liquidity := 130 } : Market).total_liquidity := by
  constructor
  · exact liquidity_invariant_amended.1 77 "acme" "d" 100 1000 demoS0 demoS1 rfl
  · exact liquidity_invariant_amended.2 10 1 1 30 true demoS1 demoS2 demoMarket
      ({ demoMarket with yes_pool := 80, total_liquidity := 130 }) rfl rfl rfl rfl

/-- **C4**: a trader who already holds a position for a market (its key is
present in the trader's position table, whichever side was backed) gets
`E_POSITION_ALREADY_EXISTS` from any further bet on that market that passes
the preceding guards (nonzero amount, market known, unresolved, unexpired) —
for either side `side`, so no top-ups and no side switching. -/
theorem position_already_exists_spec (now tr mid a : Nat) (side : Bool)
    (s : GlobalState) (m : Market) (store : List (Nat × UserPosition))
    (ha : a ≠ 0)
    (hm : tget s.registry.markets mid = some m)
    (hres : m.resolved = false)
    (hexp : now < m.expiry_timestamp)
    (hstore : tget s.positions tr = some store)
    (hpos : tcontains store mid = true) :
    buy_tokens_internal now tr mid a side s =
      .error (.abort E_POSITION_ALREADY_EXISTS) := by
  have hexp2 : ¬ m.expiry_timestamp ≤ now := Nat.not_le.mpr hexp
  simp [buy_tokens_internal, ha, hm, hres, hexp2, hstore, hpos]

/-- Witness for **C4**: user 1 holds a YES position on market 1 in `demoS2`;
a NO bet (the opposite side) of 5 by user 1 fails
`E_POSITION_ALREADY_EXISTS`. -/
theorem position_already_exists_spec_witness :
    buy_tokens_internal 10 1 1 5 false demoS2 =
      .error (.abort E_POSITION_ALREADY_EXISTS) := by
  exact position_already_exists_spec 10 1 1 5 false demoS2
    ({ demoMarket with yes_pool := 80, total_liquidity := 130 })
    [(1, { yes_tokens := 30, no_tokens := 0, total_invested := 30 })]
    (by decide) rfl rfl (by decide) rfl (by decide)

/-- **C5** fails as stated: on the resolved market of `demoS4` whose expiry
(1000) has passed at time 2000, a bet fails `E_MARKET_RESOLVED`, not
`E_MARKET_EXPIRED` — the resolution check precedes the expiry check. -/
theorem expired_bet_resolved_cex :
    demoMarketResolved.expiry_timestamp ≤ 2000 ∧
    tget demoS4.registry.markets 1 = some demoMarketResolved ∧
    buy_yes 2000 3 1 5 demoS4 = .error (.abort E_MARKET_RESOLVED) ∧
    MoveError.abort E_MARKET_RESOLVED ≠ MoveError.abort E_MARKET_EXPIRED :=
  ⟨by decide, rfl, rfl, by decide⟩

/-- **C5** (amended): a bet with nonzero amount on a known market whose
expiry has passed (`expiry_timestamp ≤ now`) always fails — with
`E_MARKET_EXPIRED` when the market is unresolved, but with
`E_MARKET_RESOLVED` when it is already resolved, because the resolution
check runs first. -/
theorem expired_bet_spec (now tr mid a : Nat) (side : Bool) (s : GlobalState)
    (m : Market) (ha : a ≠ 0) (hm : tget s.registry.markets mid = some m)
    (hexp : m.expiry_timestamp ≤ now) :
    buy_tokens_internal now tr mid a side s =
      .error (.abort (if m.resolved = true then E_MARKET_RESOLVED else E_MARKET_EXPIRED)) := by
  by_cases hres : m.resolved = true
  · simp [buy_tokens_internal, ha, hm, hres]
  · simp [buy_tokens_internal, ha, hm, hres, hexp]

/-- Witness for **C5** (amended): at time 2000 the unresolved demo market
(expiry 1000) rejects a bet with `E_MARKET_EXPIRED`, and its resolved
counterpart rejects it with `E_MARKET_RESOLVED`. -/
theorem expired_bet_spec_witness :
    buy_tokens_internal 2000 3 1 5 true demoS1 = .error (.abort E_MARKET_EXPIRED) ∧
    buy_tokens_internal 2000 3 1 5 true demoS4 = .error (.abort E_MARKET_RESOLVED) := by
  constructor
  · exact expired_bet_spec 2000 3 1 5 true demoS1 demoMarket (by decide) rfl (by decide)
  · exact expired_bet_spec 2000 3 1 5 true demoS4 demoMarketResolved (by decide) rfl (by decide)

/-- **C2**: for a claimer holding `ws > 0` winning-side tokens on a resolved
market whose winning pool `wp` contains them (`ws ≤ wp`), with `u64`-ranged
operands, `claim_winnings` succeeds and credits exactly
`⌊ws * total_liquidity / wp⌋`; the `u128`-wide product check and the
`u64` narrowing cast both pass, so the double-width intermediate cannot
overflow. -/
theorem claim_winnings_payout_spec (c mid ws wp : Nat) (s : GlobalState)
    (store : List (Nat × UserPosition)) (pos : UserPosition) (m : Market)
    (hstore : tget s.positions c = some store)
    (hpos : tget store mid = some pos)
    (hm : tget s.registry.markets mid = some m)
    (hres : m.resolved = true)
    (hws : ws = if m.winning_outcome then pos.yes_tokens else pos.no_tokens)
    (hwp : wp = if m.winning_outcome then m.yes_pool else m.no_pool)
    (hws_pos : 0 < ws) (hle : ws ≤ wp)
    (hws64 : ws < U64_MOD) (hL64 : m.total_liquidity < U64_MOD) :
    claim_winnings c mid s = .ok
      ({ s with positions := tset s.positions c (tset store mid ({ pos with yes_tokens := 0, no_tokens := 0 })) },
        payout_amount ws m.total_liquidity wp) ∧
    payout_amount ws m.total_liquidity wp = ws * m.total_liquidity / wp := by
  have hwp_pos : 0 < wp := lt_of_lt_of_le hws_pos hle
  have hmul : ws * m.total_liquidity < U128_MOD := by
    calc ws * m.total_liquidity < U64_MOD * U64_MOD := Nat.mul_lt_mul'' hws64 hL64
      _ = U128_MOD := by norm_num [U64_MOD, U128_MOD]
  have hpay : payout_amount ws m.total_liquidity wp < U64_MOD := by
    have h1 : ws * m.total_liquidity ≤ wp * m.total_liquidity :=
      Nat.mul_le_mul_right _ hle
    have h2 : ws * m.total_liquidity / wp ≤ wp * m.total_liquidity / wp :=
      Nat.div_le_div_right h1
    have h3 : wp * m.total_liquidity / wp = m.total_liquidity :=
      Nat.mul_div_cancel_left _ hwp_pos
    calc payout_amount ws m.total_liquidity wp
        = ws * m.total_liquidity / wp := rfl
      _ ≤ wp * m.total_liquidity / wp := h2
      _ = m.total_liquidity := h3
      _ < U64_MOD := hL64
  refine ⟨?_, rfl⟩
  simp only [claim_winnings, hstore, hpos, hm, hres]
  rw [← hws, ← hwp]
  rw [if_neg (by omega : ¬ ws = 0), if_pos hmul, if_neg (by omega : ¬ wp = 0),
    if_pos hpay]
  exact if_pos trivial

/-- Witness for **C2**: the worked scenario — user 1 with 30 YES tokens on
the resolved market (winning pool 80, total liquidity 150) is credited
`⌊30 * 150 / 80⌋ = 56`. -/
theorem claim_winnings_payout_spec_witness :
    claim_winnings 1 1 demoS4 = .ok (demoS5, 56) ∧ payout_amount 30 150 80 = 56 := by
  have h := claim_winnings_payout_spec 1 1 30 80 demoS4
    [(1, { yes_tokens := 30, no_tokens := 0, total_invested := 30 })]
    ({ yes_tokens := 30, no_tokens := 0, total_invested := 30 })
    demoMarketResolved rfl rfl rfl rfl rfl rfl
    (by decide) (by decide) (by decide) (by decide)
  exact ⟨h.1, rfl⟩

/-- Successful-claim inversion: a claim that returns `.ok` found the
claimer's store and position, found a resolved market, left the registry
untouched, and replaced the position by one with both token counters
zeroed. -/
theorem claim_ok_inv (c mid : Nat) (s s' : GlobalState) (p : Nat)
    (hok : claim_winnings c mid s = .ok (s', p)) :
    ∃ store pos m, tget s.positions c = some store ∧ tget store mid = some pos ∧
      tget s.registry.markets mid = some m ∧ m.resolved = true ∧
      s'.registry = s.registry ∧
      s'.positions = tset s.positions c (tset store mid ({ pos with yes_tokens := 0, no_tokens := 0 })) := by
  simp only [claim_winnings] at hok
  split at hok
  case _ => simp at hok
  case _ =>
    rename_i store hstore
    split at hok
    case _ => simp at hok
    case _ =>
      rename_i pos hpos
      split at hok
      case _ => simp at hok
      case _ =>
        rename_i m hm
        split at hok
        case isFalse hres => simp at hok
        case isTrue hres =>
          repeat' split at hok
          all_goals simp only [Except.ok.injEq, Prod.mk.injEq, reduceCtorEq] at hok
          all_goals obtain ⟨hs', hp⟩ := hok
          all_goals subst hs'
          all_goals exact ⟨store, pos, m, hstore, hpos, hm, hres, rfl, rfl⟩

/-- **C3**: a successful `claim_winnings` zeroes both `yes_tokens` and
`no_tokens` of the claimer's position, and a second `claim_winnings` by the
same user for the same market deterministically fails `E_NO_WINNINGS`
(failures are whole-transaction aborts carrying no state change in this
embedding, matching Move's semantics). -/
theorem claim_zeroing_idempotent :
    (∀ (c mid : Nat) (s s' : GlobalState) (p : Nat),
      claim_winnings c mid s = .ok (s', p) →
      ∃ store' pos', tget s'.positions c = some store' ∧
        tget store' mid = some pos' ∧ pos'.yes_tokens = 0 ∧ pos'.no_tokens = 0) ∧
    (∀ (c mid : Nat) (s s' : GlobalState) (p : Nat),
      claim_winnings c mid s = .ok (s', p) →
      claim_winnings c mid s' = .error (.abort E_NO_WINNINGS)) := by
  constructor
  · intro c mid s s' p hok
    obtain ⟨store, pos, m, h1, h2, h3, h4, h5, h6⟩ := claim_ok_inv c mid s s' p hok
    exact ⟨_, _, by rw [h6, tget_tset_self], by rw [tget_tset_self], rfl, rfl⟩
  · intro c mid s s' p hok
    obtain ⟨store, pos, m, h1, h2, h3, h4, h5, h6⟩ := claim_ok_inv c mid s s' p hok
    simp only [claim_winnings, h6, h5, tget_tset_self, h3, h4]
    simp

/-- Witness for **C3**: in the worked scenario, user 1's claim zeroes the
position and the immediate second claim fails `E_NO_WINNINGS`. -/
theorem claim_zeroing_idempotent_witness :
    (∃ store' pos', tget demoS5.positions 1 = some store' ∧
      tget store' 1 = some pos' ∧ pos'.yes_tokens = 0 ∧ pos'.no_tokens = 0) ∧
    claim_winnings 1 1 demoS5 = .error (.abort E_NO_WINNINGS) := by
  constructor
  · exact claim_zeroing_idempotent.1 1 1 demoS4 demoS5 56 rfl
  · exact claim_zeroing_idempotent.2 1 1 demoS4 demoS5 56 rfl

/-- Division identity for the payout formula, summed over a share list:
`(Σ ⌊sᵢL/W⌋)·W + Σ (sᵢL mod W) = (Σ sᵢ)·L`. -/
theorem payout_sum_identity (l : List Nat) (L W : Nat) :
    (l.map fun s => payout_amount s L W).sum * W +
      (l.map fun s => s * L % W).sum = l.sum * L := by
  induction l with
  | nil => simp
  | cons a t ih =>
    simp only [List.map_cons, List.sum_cons]
    have hdm : W * (a * L / W) + a * L % W = a * L := Nat.div_add_mod (a * L) W
    calc (payout_amount a L W + (t.map fun s => payout_amount s L W).sum) * W +
          (a * L % W + (t.map fun s => s * L % W).sum)
        = (W * (a * L / W) + a * L % W) +
            ((t.map fun s => payout_amount s L W).sum * W +
              (t.map fun s => s * L % W).sum) := by
          unfold payout_amount; ring
      _ = a * L + t.sum * L := by rw [hdm, ih]
      _ = (a + t.sum) * L := by ring

/-- Each rounding remainder is at most `W - 1`, so the summed remainder is
at most `length · (W - 1)`. -/
theorem payout_rem_sum_le (l : List Nat) (L W : Nat) (hW : 0 < W) :
    (l.map fun s => s * L % W).sum ≤ l.length * (W - 1) := by
  induction l with
  | nil => simp
  | cons a t ih =>
    simp only [List.map_cons, List.sum_cons, List.length_cons]
    have h1 : a * L % W ≤ W - 1 := by
      have h2 := Nat.mod_lt (a * L) hW
      omega
    calc a * L % W + (t.map fun s => s * L % W).sum
        ≤ (W - 1) + t.length * (W - 1) := Nat.add_le_add h1 ih
      _ = (t.length + 1) * (W - 1) := by ring

/-- **C6**: for a nonempty list of positive winner shares summing to
`W > 0` and any total liquidity `L`, the summed payouts
`Σ payout_amount sᵢ L W = Σ ⌊sᵢ·L/W⌋` never exceed `L`, and the locked
residual `L - Σ ⌊sᵢ·L/W⌋` is strictly less than the number of winners. -/
theorem payout_conservation (shares : List Nat) (L W : Nat)
    (hne : shares ≠ []) (hpos : ∀ x ∈ shares, 0 < x)
    (hsum : shares.sum = W) (hW : 0 < W) :
    (shares.map fun s => payout_amount s L W).sum ≤ L ∧
    L - (shares.map fun s => payout_amount s L W).sum < shares.length := by
  have hid := payout_sum_identity shares L W
  have hrem := payout_rem_sum_le shares L W hW
  have hlen : 0 < shares.length := List.length_pos.mpr hne
  rw [hsum, Nat.mul_comm W L] at hid
  -- hid : T * W + R = L * W
  have hTle : (shares.map fun s => payout_amount s L W).sum ≤ L :=
    Nat.le_of_mul_le_mul_right (Nat.le.intro hid) hW
  refine ⟨hTle, ?_⟩
  have hsub : (L - (shares.map fun s => payout_amount s L W).sum) * W
      = (shares.map fun s => s * L % W).sum := by
    rw [Nat.sub_mul, ← hid, Nat.add_sub_cancel_left]
  have hkey : shares.length * (W - 1) + shares.length = shares.length * W := by
    cases W with
    | zero => omega
    | succ w => simp [Nat.mul_succ]
  have hlt : (shares.map fun s => s * L % W).sum < shares.length * W := by
    linarith [hrem, hkey, hlen]
  rw [← hsub] at hlt
  exact lt_of_mul_lt_mul_right hlt (Nat.zero_le W)

/-- Witness for **C6**: shares `[30, 50]` summing to the winning pool 80 of
the worked scenario with `L = 150`: payouts 56 + 93 = 149 ≤ 150 and the
locked residual 1 is less than the 2 claimants. -/
theorem payout_conservation_witness :
    ([30, 50].map fun s => payout_amount s 150 80).sum ≤ 150 ∧
    150 - ([30, 50].map fun s => payout_amount s 150 80).sum <
      ([30, 50] : List Nat).length :=
  payout_conservation [30, 50] 150 80 (by decide) (by decide) (by decide) (by decide)

/-- **C9** fails as stated: with market 42 unknown, the views
`get_market_details` and `get_market_pools` abort (`E_MARKET_NOT_FOUND` and
a builtin table abort respectively) instead of returning a default value. -/
theorem view_nonfailing_cex :
    get_market_details demoS1 42 = .error (.abort E_MARKET_NOT_FOUND) ∧
    get_market_pools demoS1 42 = .error .builtinAbort :=
  ⟨rfl, rfl⟩

/-- **C9** (amended): the position lookup and the price views are
non-failing (a missing `Position` resource or entry yields `(0, 0, 0)`;
prices are constants), as are market count, id list, treasury and vault
address; but the per-market accessors fail on an unknown market id —
`get_market_details` with `E_MARKET_NOT_FOUND` and pools/expiry/info/
expired-flag/status through the builtin `table::borrow` abort — and
`get_market_id_at` fails on an out-of-range index. -/
theorem view_totality_spec :
    (∀ (s : GlobalState) (u mid : Nat),
      tget s.positions u = none → get_position s u mid = .ok (0, 0, 0)) ∧
    (∀ (s : GlobalState) (u mid : Nat) (store : List (Nat × UserPosition)),
      tget s.positions u = some store → tget store mid = none →
      get_position s u mid = .ok (0, 0, 0)) ∧
    (∀ s : GlobalState, get_market_count s = .ok s.registry.market_ids.length ∧
      get_market_ids s = .ok s.registry.market_ids ∧
      get_treasury_fees s = .ok s.registry.treasury ∧
      get_resource_address s = .ok s.registry.admin) ∧
    (∀ r mid : Nat, get_prices_bps r mid = (5000, 5000) ∧
      get_yes_price_bps r mid = 5000) ∧
    (∀ (s : GlobalState) (mid : Nat), tget s.registry.markets mid = none →
      get_market_details s mid = .error (.abort E_MARKET_NOT_FOUND) ∧
      get_market_pools s mid = .error .builtinAbort ∧
      get_market_expiry s mid = .error .builtinAbort ∧
      get_market_info s mid = .error .builtinAbort ∧
      (∀ now : Nat, is_market_expired now s mid = .error .builtinAbort ∧
        get_market_status now s mid = .error .builtinAbort)) ∧
    (∀ (s : GlobalState) (i : Nat), s.registry.market_ids.length ≤ i →
      get_market_id_at s i = .error .builtinAbort) := by
  refine ⟨?_, ?_, ?_, ?_, ?_, ?_⟩
  · intro s u mid h
    simp [get_position, h]
  · intro s u mid store h1 h2
    simp [get_position, h1, h2]
  · intro s
    exact ⟨rfl, rfl, rfl, rfl⟩
  · intro r mid
    exact ⟨rfl, rfl⟩
  · intro s mid h
    refine ⟨?_, ?_, ?_, ?_, fun now => ⟨?_, ?_⟩⟩ <;>
      simp [get_market_details, get_market_pools, get_market_expiry,
        get_market_info, is_market_expired, get_market_status, h]
  · intro s i h
    simp [get_market_id_at, List.getElem?_eq_none h]

/-- Witness for **C9** (amended): a user with no `Position` resource reads
as `(0, 0, 0)`; unknown market 42 makes the detail and pool views abort;
index 7 is out of range for the single-market id list. -/
theorem view_totality_spec_witness :
    get_position demoS1 5 1 = .ok (0, 0, 0) ∧
    get_market_details demoS1 42 = .error (.abort E_MARKET_NOT_FOUND) ∧
    get_market_id_at demoS1 7 = .error .builtinAbort := by
  refine ⟨?_, ?_, ?_⟩
  · exact view_totality_spec.1 demoS1 5 1 rfl
  · exact (view_totality_spec.2.2.2.2.1 demoS1 42 rfl).1
  · exact view_totality_spec.2.2.2.2.2 demoS1 7 (by decide)

end PredictionMarket
